import Mathlib

/-
  Shallow embedding of the order/stock workflow of src/server.js
  (POST /orders, POST /orders/:id/items, PATCH /orders/:orderId/items/:itemId,
  DELETE /orders/:orderId/items/:itemId).

  The relational store is a record of lists; a SQL UPDATE ... WHERE id = $1 is a
  map over the list touching the matching rows; BEGIN/ROLLBACK is modelled by
  each handler returning the pre-transaction state on every error exit, exactly
  as the explicit ROLLBACK calls in the source do.  Quantities, stock and prices
  are integers.
-/

namespace OrderMgmt

/-- JS `x || d` on numbers: `0` is falsy. -/
def jsOr (x d : Int) : Int := if x = 0 then d else x

@[ext] structure Product where
  id : Nat
  name : String
  stock : Int
  price : Int
  deriving DecidableEq

@[ext] structure Customer where
  id : Nat
  name : String
  deriving DecidableEq

@[ext] structure Order where
  id : Nat
  customerId : Nat
  customerName : String
  status : String
  deriving DecidableEq

@[ext] structure OrderItem where
  id : Nat
  orderId : Nat
  productId : Nat
  productName : String
  quantity : Int
  priceAtOrder : Int
  deriving DecidableEq

@[ext] structure DB where
  customers : List Customer
  products : List Product
  orders : List Order
  orderItems : List OrderItem
  nextOrderId : Nat
  nextItemId : Nat
  deriving DecidableEq

/-- Input entry of POST /orders: `{productId, quantity}`. -/
structure ItemInput where
  productId : Nat
  quantity : Int
  deriving DecidableEq

/-- Error taxonomy; each constructor carries the message string built by the
handler.  `internal` is the catch-all 500 path. -/
inductive ApiError where
  | invalidInput (msg : String)
  | customerNotFound (msg : String)
  | orderNotFound (msg : String)
  | itemNotFound (msg : String)
  | productNotFound (msg : String)
  | invalidState (msg : String)
  | insufficientStock (msg : String)
  | lastItem (msg : String)
  | internal (msg : String)
  deriving DecidableEq

/-- SELECT * FROM customers WHERE id = $1 -/
def findCustomer (σ : DB) (cid : Nat) : Option Customer :=
  σ.customers.find? (fun c => c.id == cid)

/-- SELECT * FROM orders WHERE id = $1 -/
def findOrder (σ : DB) (oid : Nat) : Option Order :=
  σ.orders.find? (fun o => o.id == oid)

/-- SELECT * FROM products WHERE id = $1 (FOR UPDATE) -/
def findProductIn (ps : List Product) (pid : Nat) : Option Product :=
  ps.find? (fun p => p.id == pid)

/-- SELECT * FROM order_items WHERE id = $1 AND order_id = $2 -/
def findItemIn (its : List OrderItem) (iid oid : Nat) : Option OrderItem :=
  its.find? (fun it => it.id == iid && it.orderId == oid)

def findItem (σ : DB) (iid oid : Nat) : Option OrderItem :=
  findItemIn σ.orderItems iid oid

/-- UPDATE products SET stock = stock - $1 WHERE id = $2 -/
def updateStock (ps : List Product) (pid : Nat) (q : Int) : List Product :=
  ps.map (fun p => if p.id == pid then { p with stock := p.stock - q } else p)

/-- UPDATE products SET stock = stock + $1 WHERE id = $2 -/
def restoreStock (ps : List Product) (pid : Nat) (q : Int) : List Product :=
  ps.map (fun p => if p.id == pid then { p with stock := p.stock + q } else p)

/-- UPDATE order_items SET quantity = $1 WHERE id = $2 -/
def setItemQuantity (its : List OrderItem) (iid : Nat) (q : Int) : List OrderItem :=
  its.map (fun it => if it.id == iid then { it with quantity := q } else it)

/-- DELETE FROM order_items WHERE id = $1 -/
def deleteItem (its : List OrderItem) (iid : Nat) : List OrderItem :=
  its.filter (fun it => !(it.id == iid))

/-- SELECT COUNT(*) FROM order_items WHERE order_id = $1 -/
def itemCount (σ : DB) (oid : Nat) : Nat :=
  (σ.orderItems.filter (fun it => it.orderId == oid)).length

/-- Message of the POST /orders insufficient-stock branch. -/
def createStockMsg (name : String) (avail req : Int) : String :=
  "Insufficient stock for " ++ name ++ ". Available: " ++ toString avail ++
    ", Requested: " ++ toString req

/-- Message of the add-item and update-item insufficient-stock branches. -/
def itemStockMsg (avail : Int) : String :=
  "Insufficient stock. Available: " ++ toString avail

/-- The per-item loop of POST /orders, run inside the open transaction: the
working state is threaded through; any error aborts (the caller rolls back). -/
def processItems (oid : Nat) : DB → List ItemInput → List OrderItem →
    Except ApiError (DB × List OrderItem)
  | σ, [], acc => .ok (σ, acc)
  | σ, it :: rest, acc =>
    if it.productId = 0 ∨ it.quantity ≤ 0 then
      .error (.invalidInput "Invalid item: productId and quantity > 0 required")
    else
      match findProductIn σ.products it.productId with
      | none => .error (.productNotFound ("Product not found: " ++ toString it.productId))
      | some product =>
        if product.stock < it.quantity then
          .error (.insufficientStock (createStockMsg product.name product.stock it.quantity))
        else
          let newItem : OrderItem :=
            { id := σ.nextItemId, orderId := oid, productId := it.productId,
              productName := product.name, quantity := it.quantity,
              priceAtOrder := jsOr product.price 0 }
          processItems oid
            { σ with orderItems := σ.orderItems ++ [newItem],
                     nextItemId := σ.nextItemId + 1,
                     products := updateStock σ.products it.productId it.quantity }
            rest (acc ++ [newItem])

/-- Transactional body of POST /orders; the wrapper below applies COMMIT or
ROLLBACK.  The order row is inserted before the item loop, exactly as in the
source. -/
def createOrderTx (σ : DB) (customerId : Nat) (items : List ItemInput) :
    Except ApiError (Order × List OrderItem × DB) :=
  if customerId = 0 ∨ items.isEmpty then
    .error (.invalidInput "Customer ID and at least one item are required")
  else
    match findCustomer σ customerId with
    | none => .error (.customerNotFound "Customer not found")
    | some customer =>
      let order : Order :=
        { id := σ.nextOrderId, customerId := customerId,
          customerName := customer.name, status := "pending" }
      let σ₁ : DB :=
        { σ with orders := σ.orders ++ [order], nextOrderId := σ.nextOrderId + 1 }
      match processItems order.id σ₁ items [] with
      | .error e => .error e
      | .ok (σ₂, its) => .ok (order, its, σ₂)

/-- POST /orders: on any error the transaction is rolled back, so the input
state is returned unchanged. -/
def createOrder (σ : DB) (customerId : Nat) (items : List ItemInput) :
    Except ApiError (Order × List OrderItem) × DB :=
  match createOrderTx σ customerId items with
  | .error e => (.error e, σ)
  | .ok (order, its, σ₂) => (.ok (order, its), σ₂)

/-- Transactional body of POST /orders/:id/items. -/
def addItemTx (σ : DB) (oid pid : Nat) (quantity : Int) :
    Except ApiError (OrderItem × DB) :=
  if pid = 0 ∨ quantity ≤ 0 then
    .error (.invalidInput "Product ID and quantity > 0 required")
  else
    match findOrder σ oid with
    | none => .error (.orderNotFound "Order not found")
    | some ord =>
      if ord.status ≠ "pending" then
        .error (.invalidState "Can only add items to pending orders")
      else
        match findProductIn σ.products pid with
        | none => .error (.productNotFound "Product not found")
        | some product =>
          if product.stock < quantity then
            .error (.insufficientStock (itemStockMsg product.stock))
          else
            let newItem : OrderItem :=
              { id := σ.nextItemId, orderId := oid, productId := pid,
                productName := product.name, quantity := quantity,
                priceAtOrder := jsOr product.price 0 }
            .ok (newItem,
              { σ with orderItems := σ.orderItems ++ [newItem],
                       nextItemId := σ.nextItemId + 1,
                       products := updateStock σ.products pid quantity })

/-- POST /orders/:id/items with rollback on error. -/
def addItem (σ : DB) (oid pid : Nat) (quantity : Int) :
    Except ApiError OrderItem × DB :=
  match addItemTx σ oid pid quantity with
  | .error e => (.error e, σ)
  | .ok (it, σ₂) => (.ok it, σ₂)

/-- Transactional body of PATCH /orders/:orderId/items/:itemId.  The source
reads `productResult.rows[0]` without checking that a row came back: when the
item's product is gone and the quantity is being increased, reading `.stock`
of `undefined` throws, the catch block rolls back and reports the generic 500
message; when the quantity is not increased the handler proceeds and the stock
UPDATE simply matches no row. -/
def updateItemQuantityTx (σ : DB) (oid iid : Nat) (quantity : Int) :
    Except ApiError (OrderItem × DB) :=
  if quantity ≤ 0 then
    .error (.invalidInput "Quantity must be greater than 0")
  else
    match findOrder σ oid with
    | none => .error (.orderNotFound "Order not found")
    | some ord =>
      if ord.status ≠ "pending" then
        .error (.invalidState "Can only edit pending orders")
      else
        match findItem σ iid oid with
        | none => .error (.itemNotFound "Order item not found")
        | some item =>
          let quantityDiff := quantity - item.quantity
          match findProductIn σ.products item.productId with
          | none =>
            if 0 < quantityDiff then
              .error (.internal "Failed to update order item")
            else
              .ok ({ item with quantity := quantity },
                { σ with orderItems := setItemQuantity σ.orderItems iid quantity,
                         products := updateStock σ.products item.productId quantityDiff })
          | some product =>
            if 0 < quantityDiff ∧ product.stock < quantityDiff then
              .error (.insufficientStock (itemStockMsg product.stock))
            else
              .ok ({ item with quantity := quantity },
                { σ with orderItems := setItemQuantity σ.orderItems iid quantity,
                         products := updateStock σ.products item.productId quantityDiff })

/-- PATCH /orders/:orderId/items/:itemId with rollback on error. -/
def updateItemQuantity (σ : DB) (oid iid : Nat) (quantity : Int) :
    Except ApiError OrderItem × DB :=
  match updateItemQuantityTx σ oid iid quantity with
  | .error e => (.error e, σ)
  | .ok (it, σ₂) => (.ok it, σ₂)

/-- Transactional body of DELETE /orders/:orderId/items/:itemId.  The
last-item count check runs before the item lookup, as in the source. -/
def removeItemTx (σ : DB) (oid iid : Nat) : Except ApiError (Nat × DB) :=
  match findOrder σ oid with
  | none => .error (.orderNotFound "Order not found")
  | some ord =>
    if ord.status ≠ "pending" then
      .error (.invalidState "Can only remove items from pending orders")
    else
      if itemCount σ oid ≤ 1 then
        .error (.lastItem "Cannot remove last item. Delete the order instead.")
      else
        match findItem σ iid oid with
        | none => .error (.itemNotFound "Order item not found")
        | some item =>
          .ok (iid,
            { σ with products := restoreStock σ.products item.productId item.quantity,
                     orderItems := deleteItem σ.orderItems iid })

/-- DELETE /orders/:orderId/items/:itemId with rollback on error. -/
def removeItem (σ : DB) (oid iid : Nat) : Except ApiError Nat × DB :=
  match removeItemTx σ oid iid with
  | .error e => (.error e, σ)
  | .ok (iid', σ₂) => (.ok iid', σ₂)

/-- All products have non-negative stock. -/
def StockNonneg (σ : DB) : Prop := ∀ p ∈ σ.products, 0 ≤ p.stock

/-- Well-formedness of a database state: primary keys of products and order
items are unique, and every stored item quantity is positive (the data model
of the spec; every state reachable through the handlers satisfies it). -/
def DB.WF (σ : DB) : Prop :=
  (σ.products.map Product.id).Nodup ∧
  (σ.orderItems.map OrderItem.id).Nodup ∧
  ∀ it ∈ σ.orderItems, 0 < it.quantity

/-- Total quantity requested for product `pid` by a list of input entries. -/
def requestedTotal (items : List ItemInput) (pid : Nat) : Int :=
  (items.map (fun it => if it.productId == pid then it.quantity else 0)).sum

/-- Specification-level description of the stock effect of one CreateOrder
call: every product loses the total quantity requested of it. -/
def applyReservations (items : List ItemInput) (ps : List Product) : List Product :=
  ps.map (fun p => { p with stock := p.stock - requestedTotal items p.id })

/-- The order item `oi` is the faithful record of input entry `it` against the
pre-state `σ`: same product, requested quantity, and the product's price and
name as of the moment of reservation. -/
def ItemMatches (σ : DB) (oid : Nat) (oi : OrderItem) (it : ItemInput) : Prop :=
  oi.orderId = oid ∧ oi.productId = it.productId ∧ oi.quantity = it.quantity ∧
  (findProductIn σ.products it.productId).map (fun p => jsOr p.price 0) =
    some oi.priceAtOrder ∧
  (findProductIn σ.products it.productId).map Product.name = some oi.productName

def exOk {ε α : Type} : Except ε α → Bool
  | .ok _ => true
  | .error _ => false

/-- The order's status as seen by a reader. -/
def orderStatus (σ : DB) (oid : Nat) : Option String :=
  (findOrder σ oid).map Order.status

/-- `leadsWith n h`: the char list `n` is an initial segment of `h`. -/
def leadsWith : List Char → List Char → Bool
  | [], _ => true
  | _ :: _, [] => false
  | a :: as, b :: bs => a == b && leadsWith as bs

/-- `hasSubList n h`: `n` occurs contiguously inside `h`. -/
def hasSubList (n : List Char) : List Char → Bool
  | [] => leadsWith n []
  | c :: t => leadsWith n (c :: t) || hasSubList n t

/-- The string `needle` occurs contiguously inside `hay`. -/
def strHasSub (hay needle : String) : Bool := hasSubList needle.toList hay.toList

/-- The catalog data of a product row: name and the price that would be
captured at reservation time (`price || 0`), ignoring the stock count. -/
def catalogView (p : Product) : String × Int := (p.name, jsOr p.price 0)

/-- A sample database used by the witnesses: one customer, one product with
stock 10 and price 5, no orders yet. -/
def db0 : DB :=
  { customers := [{ id := 1, name := "Alice" }],
    products := [{ id := 1, name := "Widget", stock := 10, price := 5 }],
    orders := [], orderItems := [], nextOrderId := 1, nextItemId := 1 }

/-- The order that `createOrder db0 1 [(1,3)]` creates. -/
def ord0 : Order :=
  { id := 1, customerId := 1, customerName := "Alice", status := "pending" }

/-- The order item that `createOrder db0 1 [(1,3)]` creates. -/
def item0 : OrderItem :=
  { id := 1, orderId := 1, productId := 1, productName := "Widget",
    quantity := 3, priceAtOrder := 5 }

/-- The customer of `db0`. -/
def cust0 : Customer := { id := 1, name := "Alice" }

/-- The product of `db1`: stock 7, price 5. -/
def prod7 : Product := { id := 1, name := "Widget", stock := 7, price := 5 }

/-- A database holding one pending order (ord0) with one item (item0,
quantity 3) on product 1 whose stock is 7 — the state of the spec's
update-quantity scenario. -/
def db1 : DB :=
  { customers := [cust0], products := [prod7], orders := [ord0],
    orderItems := [item0], nextOrderId := 2, nextItemId := 2 }

/-- A second item on the same order, quantity 2. -/
def item2 : OrderItem :=
  { id := 2, orderId := 1, productId := 1, productName := "Widget",
    quantity := 2, priceAtOrder := 5 }

/-- Like db1 but with two items on the pending order, so removal is legal. -/
def db2 : DB :=
  { customers := [cust0], products := [prod7], orders := [ord0],
    orderItems := [item0, item2], nextOrderId := 2, nextItemId := 3 }

/-- An order already shipped: item mutations must be rejected. -/
def ordShipped : Order :=
  { id := 1, customerId := 1, customerName := "Alice", status := "shipped" }

/-- Like db1 but the order is shipped. -/
def db3 : DB :=
  { customers := [cust0], products := [prod7], orders := [ordShipped],
    orderItems := [item0], nextOrderId := 2, nextItemId := 2 }

/-- An item of a pending order whose product (id 99) does not exist in the
product table. -/
def itemGhost : OrderItem :=
  { id := 1, orderId := 1, productId := 99, productName := "Ghost",
    quantity := 3, priceAtOrder := 5 }

/-- A database whose pending order holds an item referencing a product that
was deleted from the catalog. -/
def dbOrphan : DB :=
  { customers := [cust0], products := [], orders := [ord0],
    orderItems := [itemGhost], nextOrderId := 2, nextItemId := 2 }

/- ### Lemmas about the row-update primitives -/

lemma findProductIn_updateStock (ps : List Product) (pid₀ pid : Nat) (q : Int) :
    findProductIn (updateStock ps pid₀ q) pid =
      (findProductIn ps pid).map
        (fun p => if p.id == pid₀ then { p with stock := p.stock - q } else p) := by
  unfold findProductIn updateStock
  rw [List.find?_map]
  have hpred : ((fun p : Product => p.id == pid) ∘
      (fun p => if p.id == pid₀ then { p with stock := p.stock - q } else p)) =
      (fun p : Product => p.id == pid) := by
    funext p
    by_cases h : p.id == pid₀ <;> simp [Function.comp, h]
  rw [hpred]

lemma findProductIn_restoreStock (ps : List Product) (pid₀ pid : Nat) (q : Int) :
    findProductIn (restoreStock ps pid₀ q) pid =
      (findProductIn ps pid).map
        (fun p => if p.id == pid₀ then { p with stock := p.stock + q } else p) := by
  unfold findProductIn restoreStock
  rw [List.find?_map]
  have hpred : ((fun p : Product => p.id == pid) ∘
      (fun p => if p.id == pid₀ then { p with stock := p.stock + q } else p)) =
      (fun p : Product => p.id == pid) := by
    funext p
    by_cases h : p.id == pid₀ <;> simp [Function.comp, h]
  rw [hpred]

lemma findItemIn_setItemQuantity (its : List OrderItem) (iid₀ iid oid : Nat) (q : Int) :
    findItemIn (setItemQuantity its iid₀ q) iid oid =
      (findItemIn its iid oid).map
        (fun it => if it.id == iid₀ then { it with quantity := q } else it) := by
  unfold findItemIn setItemQuantity
  rw [List.find?_map]
  have hpred : ((fun it : OrderItem => it.id == iid && it.orderId == oid) ∘
      (fun it => if it.id == iid₀ then { it with quantity := q } else it)) =
      (fun it : OrderItem => it.id == iid && it.orderId == oid) := by
    funext it
    by_cases h : it.id == iid₀ <;> simp [Function.comp, h]
  rw [hpred]

lemma updateStock_map_id (ps : List Product) (pid : Nat) (q : Int) :
    (updateStock ps pid q).map Product.id = ps.map Product.id := by
  unfold updateStock
  rw [List.map_map]
  apply List.map_congr_left
  intro p _
  by_cases h : p.id == pid <;> simp [Function.comp, h]

lemma updateStock_nonneg (ps : List Product) (pid : Nat) (q : Int) (p : Product)
    (hnd : (ps.map Product.id).Nodup)
    (hfind : findProductIn ps pid = some p)
    (hq : q ≤ p.stock)
    (h0 : ∀ x ∈ ps, 0 ≤ x.stock) :
    ∀ x ∈ updateStock ps pid q, 0 ≤ x.stock := by
  intro x hx
  rcases List.mem_map.1 hx with ⟨y, hy, rfl⟩
  have hpmem : p ∈ ps := List.mem_of_find?_eq_some hfind
  have hpid : p.id = pid := by
    have := List.find?_some hfind
    simpa using this
  by_cases h : y.id == pid
  · have hyid : y.id = pid := by simpa using h
    have : y = p := List.inj_on_of_nodup_map hnd hy hpmem (by rw [hyid, hpid])
    subst this
    simp [h, sub_nonneg]
    exact hq
  · simp [h]
    exact h0 y hy

lemma updateStock_nonneg_of_nonpos (ps : List Product) (pid : Nat) (q : Int)
    (hq : q ≤ 0) (h0 : ∀ x ∈ ps, 0 ≤ x.stock) :
    ∀ x ∈ updateStock ps pid q, 0 ≤ x.stock := by
  intro x hx
  rcases List.mem_map.1 hx with ⟨y, hy, rfl⟩
  by_cases h : y.id == pid
  · simp [h]
    have := h0 y hy
    omega
  · simp [h]
    exact h0 y hy

lemma restoreStock_nonneg (ps : List Product) (pid : Nat) (q : Int)
    (hq : 0 ≤ q) (h0 : ∀ x ∈ ps, 0 ≤ x.stock) :
    ∀ x ∈ restoreStock ps pid q, 0 ≤ x.stock := by
  intro x hx
  rcases List.mem_map.1 hx with ⟨y, hy, rfl⟩
  by_cases h : y.id == pid
  · simp [h]
    have := h0 y hy
    omega
  · simp [h]
    exact h0 y hy

lemma catalogView_updateStock (ps : List Product) (pid : Nat) (q : Int) (pid' : Nat) :
    (findProductIn (updateStock ps pid q) pid').map catalogView =
      (findProductIn ps pid').map catalogView := by
  rw [findProductIn_updateStock]
  cases h : findProductIn ps pid' with
  | none => rfl
  | some p =>
    by_cases hp : p.id = pid <;> simp [hp, catalogView]

lemma applyReservations_nil (ps : List Product) : applyReservations [] ps = ps := by
  unfold applyReservations
  have hid : ∀ p : Product, { p with stock := p.stock - requestedTotal [] p.id } = p := by
    intro p
    cases p
    simp [requestedTotal]
  calc ps.map (fun p => { p with stock := p.stock - requestedTotal [] p.id })
      = ps.map id := List.map_congr_left (fun p _ => hid p)
    _ = ps := List.map_id ps

lemma requestedTotal_cons (it : ItemInput) (rest : List ItemInput) (pid : Nat) :
    requestedTotal (it :: rest) pid =
      (if it.productId == pid then it.quantity else 0) + requestedTotal rest pid := by
  unfold requestedTotal
  simp

lemma applyReservations_cons (it : ItemInput) (rest : List ItemInput) (ps : List Product) :
    applyReservations (it :: rest) ps =
      applyReservations rest (updateStock ps it.productId it.quantity) := by
  unfold applyReservations updateStock
  rw [List.map_map]
  apply List.map_congr_left
  intro p _
  by_cases h : p.id = it.productId
  · cases p
    simp_all [Function.comp, requestedTotal_cons]
    ring
  · have hb : (p.id == it.productId) = false := by simp [h]
    have hb2 : (it.productId == p.id) = false := by
      simp
      exact fun hx => h hx.symm
    cases p
    simp_all [Function.comp, requestedTotal_cons]

/-- Master characterization of a successful run of the item loop of
POST /orders: the stock of every product drops by the total requested
quantity, no other table changes, and the accumulated order items record the
requested quantities and the catalog prices and names of the pre-state. -/
lemma processItems_ok_spec (oid : Nat) (σ₀ : DB) (items : List ItemInput) :
    ∀ (σ₁ : DB) (acc : List OrderItem) (σ₂ : DB) (its : List OrderItem),
    (∀ pid, (findProductIn σ₁.products pid).map catalogView =
            (findProductIn σ₀.products pid).map catalogView) →
    processItems oid σ₁ items acc = .ok (σ₂, its) →
    σ₂.products = applyReservations items σ₁.products ∧
    σ₂.customers = σ₁.customers ∧
    σ₂.orders = σ₁.orders ∧
    ∃ tail, its = acc ++ tail ∧ σ₂.orderItems = σ₁.orderItems ++ tail ∧
      List.Forall₂ (ItemMatches σ₀ oid) tail items := by
  induction items with
  | nil =>
    intro σ₁ acc σ₂ its _ h
    simp only [processItems] at h
    obtain ⟨h1, h2⟩ := by simpa using h
    subst h1; subst h2
    refine ⟨(applyReservations_nil σ₁.products).symm, rfl, rfl, [], by simp, by simp, ?_⟩
    exact List.Forall₂.nil
  | cons it rest ih =>
    intro σ₁ acc σ₂ its hpn h
    simp only [processItems] at h
    by_cases hval : it.productId = 0 ∨ it.quantity ≤ 0
    · rw [if_pos hval] at h
      simp at h
    · rw [if_neg hval] at h
      cases hfp : findProductIn σ₁.products it.productId with
      | none => rw [hfp] at h; simp at h
      | some product =>
        simp only [hfp] at h
        by_cases hstock : product.stock < it.quantity
        · rw [if_pos hstock] at h
          simp at h
        · rw [if_neg hstock] at h
          have hpn' : ∀ pid,
              (findProductIn (updateStock σ₁.products it.productId it.quantity) pid).map
                catalogView =
              (findProductIn σ₀.products pid).map catalogView := by
            intro pid
            rw [catalogView_updateStock]
            exact hpn pid
          obtain ⟨hprod, hcust, hord, tail', htail, hoi, hfa⟩ :=
            ih _ _ _ _ hpn' h
          have hp0 : ∃ p₀, findProductIn σ₀.products it.productId = some p₀ ∧
              p₀.name = product.name ∧ jsOr p₀.price 0 = jsOr product.price 0 := by
            have := (hpn it.productId).symm
            rw [hfp] at this
            cases hf0 : findProductIn σ₀.products it.productId with
            | none => rw [hf0] at this; simp at this
            | some p₀ =>
              rw [hf0] at this
              simp [catalogView] at this
              exact ⟨p₀, rfl, this.1, this.2⟩
          obtain ⟨p₀, hf0, hname, hprice⟩ := hp0
          refine ⟨?_, ?_, ?_, ?_⟩
          · rw [hprod, applyReservations_cons]
          · exact hcust
          · exact hord
          · refine ⟨{ id := σ₁.nextItemId, orderId := oid, productId := it.productId,
                      productName := product.name, quantity := it.quantity,
                      priceAtOrder := jsOr product.price 0 } :: tail', ?_, ?_, ?_⟩
            · rw [htail]; simp
            · rw [hoi]; simp
            · refine List.Forall₂.cons ⟨rfl, rfl, rfl, ?_, ?_⟩ hfa
              · rw [hf0]
                simp [hprice]
              · rw [hf0]
                simp [hname]

/- ### C1: CreateOrder failure leaves the state untouched -/

/-- C1: if CreateOrder fails at any step (invalid input, missing customer,
missing product, or insufficient stock at any item), the resulting state is the
input state: no order row, no order-item rows, and zero net stock change; all
reservations made for earlier items of the same call are rolled back. -/
theorem createOrder_failure_rollback (σ : DB) (cid : Nat) (items : List ItemInput)
    (e : ApiError) (h : (createOrder σ cid items).1 = .error e) :
    (createOrder σ cid items).2 = σ := by
  unfold createOrder at h ⊢
  cases htx : createOrderTx σ cid items with
  | error e2 => simp [htx]
  | ok v => rw [htx] at h; simp at h

/-- Witness for C1: with one product of stock 10, requesting quantities 3 and
then 20 fails on the second item, and the final state equals the initial one —
the first reservation is rolled back. -/
theorem createOrder_failure_rollback_witness :
    (createOrder db0 1 [⟨1, 3⟩, ⟨1, 20⟩]).1 =
      .error (.insufficientStock
        "Insufficient stock for Widget. Available: 7, Requested: 20") ∧
    (createOrder db0 1 [⟨1, 3⟩, ⟨1, 20⟩]).2 = db0 :=
  ⟨by rfl, createOrder_failure_rollback db0 1 [⟨1, 3⟩, ⟨1, 20⟩] _ (by rfl)⟩

/- ### C2: CreateOrder success creates exactly the requested structure -/

/-- C2: on success, CreateOrder appends exactly one order (status pending, for
the verified customer) and one order item per input entry; each item records
the requested quantity and the product's price at the moment of reservation,
and every product's stock drops by the total quantity requested of it. -/
theorem createOrder_success_spec (σ : DB) (cid : Nat) (items : List ItemInput)
    (ord : Order) (its : List OrderItem) (c : Customer)
    (hc : findCustomer σ cid = some c)
    (h : (createOrder σ cid items).1 = .ok (ord, its)) :
    ord.status = "pending" ∧ ord.customerId = cid ∧ ord.customerName = c.name ∧
    (createOrder σ cid items).2.orders = σ.orders ++ [ord] ∧
    (createOrder σ cid items).2.orderItems = σ.orderItems ++ its ∧
    (createOrder σ cid items).2.products = applyReservations items σ.products ∧
    (createOrder σ cid items).2.customers = σ.customers ∧
    List.Forall₂ (ItemMatches σ ord.id) its items := by
  unfold createOrder at h ⊢
  cases htx : createOrderTx σ cid items with
  | error e => rw [htx] at h; simp at h
  | ok v =>
    obtain ⟨ord', its', σ₂⟩ := v
    rw [htx] at h
    simp only [Except.ok.injEq, Prod.mk.injEq] at h
    obtain ⟨hord, hits⟩ := h
    subst hord; subst hits
    simp only [htx]
    unfold createOrderTx at htx
    by_cases h0 : cid = 0 ∨ items.isEmpty
    · rw [if_pos h0] at htx; simp at htx
    · rw [if_neg h0] at htx
      simp only [hc] at htx
      split at htx
      · simp at htx
      · rename_i σw itsw heq
        simp only [Except.ok.injEq, Prod.mk.injEq] at htx
        obtain ⟨hordeq, hitseq, hσeq⟩ := htx
        obtain ⟨hprod, hcust, hordrs, tail, htl, hoi, hfa⟩ :=
          processItems_ok_spec σ.nextOrderId σ items
            { σ with
              orders := σ.orders ++
                [{ id := σ.nextOrderId, customerId := cid,
                   customerName := c.name, status := "pending" }],
              nextOrderId := σ.nextOrderId + 1 }
            [] σw itsw (fun _ => rfl) heq
        subst hσeq
        subst hitseq
        refine ⟨?_, ?_, ?_, ?_, ?_, ?_, ?_, ?_⟩
        · rw [← hordeq]
        · rw [← hordeq]
        · rw [← hordeq]
        · rw [hordrs]; simp [← hordeq]
        · rw [hoi]; simp [htl]
        · rw [hprod]
        · rw [hcust]
        · rw [htl] at *
          simpa [← hordeq] using hfa

/-- Witness for C2: the spec scenario — product with stock 10 and price 5,
CreateOrder(customer 1, [(P,3)]) succeeds, the stock drops to 7 (computed by
applyReservations) and the single created item has quantity 3 and
priceAtOrder 5. -/
theorem createOrder_success_spec_witness :
    ord0.status = "pending" ∧ ord0.customerId = 1 ∧ ord0.customerName = cust0.name ∧
    (createOrder db0 1 [⟨1, 3⟩]).2.orders = db0.orders ++ [ord0] ∧
    (createOrder db0 1 [⟨1, 3⟩]).2.orderItems = db0.orderItems ++ [item0] ∧
    (createOrder db0 1 [⟨1, 3⟩]).2.products = applyReservations [⟨1, 3⟩] db0.products ∧
    (createOrder db0 1 [⟨1, 3⟩]).2.customers = db0.customers ∧
    List.Forall₂ (ItemMatches db0 ord0.id) [item0] [⟨1, 3⟩] :=
  createOrder_success_spec db0 1 [⟨1, 3⟩] ord0 [item0] cust0 (by rfl) (by rfl)

/- ### C3: no operation drives any stock negative -/

lemma processItems_nonneg (oid : Nat) (items : List ItemInput) :
    ∀ (σ₁ : DB) (acc : List OrderItem) (σ₂ : DB) (its : List OrderItem),
    (σ₁.products.map Product.id).Nodup →
    (∀ p ∈ σ₁.products, 0 ≤ p.stock) →
    processItems oid σ₁ items acc = .ok (σ₂, its) →
    ∀ p ∈ σ₂.products, 0 ≤ p.stock := by
  induction items with
  | nil =>
    intro σ₁ acc σ₂ its _ h0 h
    simp only [processItems] at h
    obtain ⟨h1, h2⟩ := by simpa using h
    subst h1
    exact h0
  | cons it rest ih =>
    intro σ₁ acc σ₂ its hnd h0 h
    simp only [processItems] at h
    by_cases hval : it.productId = 0 ∨ it.quantity ≤ 0
    · rw [if_pos hval] at h; simp at h
    · rw [if_neg hval] at h
      cases hfp : findProductIn σ₁.products it.productId with
      | none => rw [hfp] at h; simp at h
      | some product =>
        simp only [hfp] at h
        by_cases hstock : product.stock < it.quantity
        · rw [if_pos hstock] at h; simp at h
        · rw [if_neg hstock] at h
          refine ih
            { σ₁ with
              orderItems := σ₁.orderItems ++
                [{ id := σ₁.nextItemId, orderId := oid, productId := it.productId,
                   productName := product.name, quantity := it.quantity,
                   priceAtOrder := jsOr product.price 0 }],
              nextItemId := σ₁.nextItemId + 1,
              products := updateStock σ₁.products it.productId it.quantity }
            _ _ _ ?_ ?_ h
          · show ((updateStock σ₁.products it.productId it.quantity).map Product.id).Nodup
            rw [updateStock_map_id]
            exact hnd
          · exact updateStock_nonneg σ₁.products it.productId it.quantity product
              hnd hfp (not_lt.mp hstock) h0

lemma createOrder_nonneg (σ : DB) (cid : Nat) (items : List ItemInput)
    (hnd : (σ.products.map Product.id).Nodup) (h0 : StockNonneg σ) :
    StockNonneg (createOrder σ cid items).2 := by
  unfold createOrder
  cases htx : createOrderTx σ cid items with
  | error e => exact h0
  | ok v =>
    obtain ⟨ord, its, σ₂⟩ := v
    unfold createOrderTx at htx
    by_cases h0' : cid = 0 ∨ items.isEmpty
    · rw [if_pos h0'] at htx; simp at htx
    · rw [if_neg h0'] at htx
      cases hc : findCustomer σ cid with
      | none => rw [hc] at htx; simp at htx
      | some c =>
        simp only [hc] at htx
        split at htx
        · simp at htx
        · rename_i σw itsw heq
          simp only [Except.ok.injEq, Prod.mk.injEq] at htx
          obtain ⟨-, -, hσeq⟩ := htx
          subst hσeq
          exact processItems_nonneg σ.nextOrderId items
            { σ with
              orders := σ.orders ++
                [{ id := σ.nextOrderId, customerId := cid,
                   customerName := c.name, status := "pending" }],
              nextOrderId := σ.nextOrderId + 1 }
            [] σw itsw hnd h0 heq

lemma addItem_nonneg (σ : DB) (oid pid : Nat) (q : Int)
    (hnd : (σ.products.map Product.id).Nodup) (h0 : StockNonneg σ) :
    StockNonneg (addItem σ oid pid q).2 := by
  unfold addItem
  cases htx : addItemTx σ oid pid q with
  | error e => exact h0
  | ok v =>
    obtain ⟨it, σ₂⟩ := v
    unfold addItemTx at htx
    by_cases hval : pid = 0 ∨ q ≤ 0
    · rw [if_pos hval] at htx; simp at htx
    · rw [if_neg hval] at htx
      cases ho : findOrder σ oid with
      | none => rw [ho] at htx; simp at htx
      | some ord =>
        simp only [ho] at htx
        by_cases hst : ord.status ≠ "pending"
        · rw [if_pos hst] at htx; simp at htx
        · rw [if_neg hst] at htx
          cases hfp : findProductIn σ.products pid with
          | none => rw [hfp] at htx; simp at htx
          | some product =>
            simp only [hfp] at htx
            by_cases hstock : product.stock < q
            · rw [if_pos hstock] at htx; simp at htx
            · rw [if_neg hstock] at htx
              simp only [Except.ok.injEq, Prod.mk.injEq] at htx
              obtain ⟨-, hσeq⟩ := htx
              subst hσeq
              exact updateStock_nonneg σ.products pid q product hnd hfp
                (not_lt.mp hstock) h0

lemma updateItemQuantity_nonneg (σ : DB) (oid iid : Nat) (q : Int)
    (hnd : (σ.products.map Product.id).Nodup) (h0 : StockNonneg σ) :
    StockNonneg (updateItemQuantity σ oid iid q).2 := by
  unfold updateItemQuantity
  cases htx : updateItemQuantityTx σ oid iid q with
  | error e => exact h0
  | ok v =>
    obtain ⟨it, σ₂⟩ := v
    unfold updateItemQuantityTx at htx
    by_cases hval : q ≤ 0
    · rw [if_pos hval] at htx; simp at htx
    · rw [if_neg hval] at htx
      cases ho : findOrder σ oid with
      | none => rw [ho] at htx; simp at htx
      | some ord =>
        simp only [ho] at htx
        by_cases hst : ord.status ≠ "pending"
        · rw [if_pos hst] at htx; simp at htx
        · rw [if_neg hst] at htx
          cases hit : findItem σ iid oid with
          | none => rw [hit] at htx; simp at htx
          | some item =>
            simp only [hit] at htx
            cases hfp : findProductIn σ.products item.productId with
            | none =>
              simp only [hfp] at htx
              by_cases hdiff : 0 < q - item.quantity
              · rw [if_pos hdiff] at htx; simp at htx
              · rw [if_neg hdiff] at htx
                simp only [Except.ok.injEq, Prod.mk.injEq] at htx
                obtain ⟨-, hσeq⟩ := htx
                subst hσeq
                exact updateStock_nonneg_of_nonpos σ.products item.productId
                  (q - item.quantity) (not_lt.mp hdiff) h0
            | some product =>
              simp only [hfp] at htx
              by_cases hcond : 0 < q - item.quantity ∧ product.stock < q - item.quantity
              · rw [if_pos hcond] at htx; simp at htx
              · rw [if_neg hcond] at htx
                simp only [Except.ok.injEq, Prod.mk.injEq] at htx
                obtain ⟨-, hσeq⟩ := htx
                subst hσeq
                by_cases hdiff : 0 < q - item.quantity
                · have hle : q - item.quantity ≤ product.stock := by
                    rcases not_and_or.mp hcond with hx | hx
                    · exact absurd hdiff hx
                    · exact not_lt.mp hx
                  exact updateStock_nonneg σ.products item.productId
                    (q - item.quantity) product hnd hfp hle h0
                · exact updateStock_nonneg_of_nonpos σ.products item.productId
                    (q - item.quantity) (not_lt.mp hdiff) h0

lemma removeItem_nonneg (σ : DB) (oid iid : Nat)
    (hq : ∀ it ∈ σ.orderItems, 0 < it.quantity) (h0 : StockNonneg σ) :
    StockNonneg (removeItem σ oid iid).2 := by
  unfold removeItem
  cases htx : removeItemTx σ oid iid with
  | error e => exact h0
  | ok v =>
    obtain ⟨iid', σ₂⟩ := v
    unfold removeItemTx at htx
    cases ho : findOrder σ oid with
    | none => rw [ho] at htx; simp at htx
    | some ord =>
      simp only [ho] at htx
      by_cases hst : ord.status ≠ "pending"
      · rw [if_pos hst] at htx; simp at htx
      · rw [if_neg hst] at htx
        by_cases hcnt : itemCount σ oid ≤ 1
        · rw [if_pos hcnt] at htx; simp at htx
        · rw [if_neg hcnt] at htx
          cases hit : findItem σ iid oid with
          | none => rw [hit] at htx; simp at htx
          | some item =>
            simp only [hit] at htx
            simp only [Except.ok.injEq, Prod.mk.injEq] at htx
            obtain ⟨-, hσeq⟩ := htx
            subst hσeq
            have hmem : item ∈ σ.orderItems := List.mem_of_find?_eq_some hit
            exact restoreStock_nonneg σ.products item.productId item.quantity
              (le_of_lt (hq item hmem)) h0

/-- C3: from any well-formed state with all stocks non-negative, each of the
four core operations — CreateOrder, AddItem, UpdateItemQuantity, RemoveItem —
whether it succeeds or rolls back, yields a state with all stocks still
non-negative. -/
theorem ops_preserve_stock_nonneg (σ : DB) (hwf : σ.WF) (h0 : StockNonneg σ)
    (cid : Nat) (items : List ItemInput) (oid pid iid : Nat) (q : Int) :
    StockNonneg (createOrder σ cid items).2 ∧
    StockNonneg (addItem σ oid pid q).2 ∧
    StockNonneg (updateItemQuantity σ oid iid q).2 ∧
    StockNonneg (removeItem σ oid iid).2 :=
  ⟨createOrder_nonneg σ cid items hwf.1 h0,
   addItem_nonneg σ oid pid q hwf.1 h0,
   updateItemQuantity_nonneg σ oid iid q hwf.1 h0,
   removeItem_nonneg σ oid iid hwf.2.2 h0⟩

/-- Witness for C3 at the sample database. -/
theorem ops_preserve_stock_nonneg_witness :
    StockNonneg (createOrder db0 1 [⟨1, 3⟩]).2 ∧
    StockNonneg (addItem db0 1 1 1).2 ∧
    StockNonneg (updateItemQuantity db0 1 1 1).2 ∧
    StockNonneg (removeItem db0 1 1).2 :=
  ops_preserve_stock_nonneg db0 ⟨by decide, by decide, by decide⟩
    (by
      intro p hp
      simp only [db0] at hp
      rcases List.mem_singleton.mp hp with rfl
      decide)
    1 [⟨1, 3⟩] 1 1 1 1

/- ### C4, C5: UpdateItemQuantity delta semantics and the idempotent no-op -/

lemma updateStock_zero (ps : List Product) (pid : Nat) : updateStock ps pid 0 = ps := by
  unfold updateStock
  have h : ∀ p ∈ ps, (if p.id == pid then { p with stock := p.stock - 0 } else p) = p := by
    intro p _
    by_cases hp : p.id == pid
    · cases p; simp [hp]
    · simp [hp]
  calc ps.map (fun p => if p.id == pid then { p with stock := p.stock - 0 } else p)
      = ps.map id := List.map_congr_left h
    _ = ps := List.map_id ps

lemma setItemQuantity_find_self (its : List OrderItem) (iid oid : Nat) (item : OrderItem)
    (hnodup : (its.map OrderItem.id).Nodup)
    (hi : findItemIn its iid oid = some item) :
    setItemQuantity its iid item.quantity = its := by
  have hmem : item ∈ its := List.mem_of_find?_eq_some hi
  have hpred := List.find?_some hi
  have hid : item.id = iid := by
    simp only [Bool.and_eq_true, beq_iff_eq] at hpred
    exact hpred.1
  unfold setItemQuantity
  have h : ∀ it ∈ its,
      (if it.id == iid then { it with quantity := item.quantity } else it) = it := by
    intro it hmem'
    by_cases hb : it.id == iid
    · have heq : it = item := by
        apply List.inj_on_of_nodup_map hnodup hmem' hmem
        have hb' : it.id = iid := by simpa using hb
        rw [hb', hid]
      subst heq
      simp [hb]
    · simp [hb]
  calc its.map (fun it => if it.id == iid then { it with quantity := item.quantity } else it)
      = its.map id := List.map_congr_left h
    _ = its := List.map_id its

/-- C4: on a pending order's existing item whose product exists, with a
positive new quantity q and delta = q - oldQuantity: if delta is positive and
exceeds the stock, the call fails with InsufficientStock and rolls back;
otherwise it succeeds, the item's quantity becomes q and the product's stock
changes by exactly -delta. -/
theorem updateItemQuantity_delta_spec (σ : DB) (oid iid : Nat) (q : Int)
    (ord : Order) (item : OrderItem) (p : Product)
    (ho : findOrder σ oid = some ord)
    (hs : ord.status = "pending")
    (hi : findItem σ iid oid = some item)
    (hp : findProductIn σ.products item.productId = some p)
    (hq : 0 < q) :
    (0 < q - item.quantity ∧ p.stock < q - item.quantity →
      updateItemQuantity σ oid iid q =
        (.error (.insufficientStock (itemStockMsg p.stock)), σ)) ∧
    (¬(0 < q - item.quantity ∧ p.stock < q - item.quantity) →
      (updateItemQuantity σ oid iid q).1 = .ok { item with quantity := q } ∧
      findProductIn (updateItemQuantity σ oid iid q).2.products item.productId =
        some { p with stock := p.stock - (q - item.quantity) } ∧
      findItemIn (updateItemQuantity σ oid iid q).2.orderItems iid oid =
        some { item with quantity := q } ∧
      (updateItemQuantity σ oid iid q).2.orders = σ.orders ∧
      (updateItemQuantity σ oid iid q).2.customers = σ.customers) := by
  have hi' : findItemIn σ.orderItems iid oid = some item := hi
  have hids := List.find?_some hi'
  simp only [Bool.and_eq_true] at hids
  have hp' : σ.products.find? (fun x => x.id == item.productId) = some p := hp
  have hpid := List.find?_some hp'
  have htx : updateItemQuantityTx σ oid iid q =
      if 0 < q - item.quantity ∧ p.stock < q - item.quantity then
        .error (.insufficientStock (itemStockMsg p.stock))
      else
        .ok ({ item with quantity := q },
          { σ with orderItems := setItemQuantity σ.orderItems iid q,
                   products := updateStock σ.products item.productId (q - item.quantity) }) := by
    unfold updateItemQuantityTx
    rw [if_neg (not_le.mpr hq)]
    simp only [ho, hi, hp]
    rw [if_neg (show ¬ord.status ≠ "pending" from fun hne => hne hs)]
  constructor
  · intro hcond
    unfold updateItemQuantity
    rw [htx, if_pos hcond]
  · intro hcond
    unfold updateItemQuantity
    rw [htx, if_neg hcond]
    refine ⟨rfl, ?_, ?_, rfl, rfl⟩
    · show findProductIn (updateStock σ.products item.productId (q - item.quantity))
        item.productId = _
      rw [findProductIn_updateStock, hp]
      simp only [Option.map_some']
      rw [if_pos hpid]
    · show findItemIn (setItemQuantity σ.orderItems iid q) iid oid = _
      rw [findItemIn_setItemQuantity, hi']
      simp only [Option.map_some']
      rw [if_pos hids.1]

/-- Witness for C4: the spec scenario — item quantity 3, stock 7; updating to
quantity 5 succeeds leaving stock 5; then updating to quantity 1 succeeds
leaving stock 9. -/
theorem updateItemQuantity_delta_spec_witness :
    (updateItemQuantity db1 1 1 5).1 = .ok { item0 with quantity := 5 } ∧
    findProductIn (updateItemQuantity db1 1 1 5).2.products 1 =
      some { id := 1, name := "Widget", stock := 5, price := 5 } ∧
    (updateItemQuantity (updateItemQuantity db1 1 1 5).2 1 1 1).1 =
      .ok { item0 with quantity := 1 } ∧
    findProductIn (updateItemQuantity (updateItemQuantity db1 1 1 5).2 1 1 1).2.products 1 =
      some { id := 1, name := "Widget", stock := 9, price := 5 } := by
  have h1 := (updateItemQuantity_delta_spec db1 1 1 5 ord0 item0 prod7
    (by rfl) (by rfl) (by rfl) (by rfl) (by decide)).2 (by decide)
  have h2 := (updateItemQuantity_delta_spec (updateItemQuantity db1 1 1 5).2 1 1 1 ord0
    { item0 with quantity := 5 } { id := 1, name := "Widget", stock := 5, price := 5 }
    (by rfl) (by rfl) (by rfl) (by rfl) (by decide)).2 (by decide)
  exact ⟨h1.1, h1.2.1, h2.1, h2.2.1⟩

/-- C5: updating an item of a pending order to its current quantity succeeds
and changes nothing: delta is zero, the stock UPDATE subtracts zero, and the
quantity UPDATE writes the value already stored. -/
theorem updateItemQuantity_noop (σ : DB) (oid iid : Nat) (ord : Order) (item : OrderItem)
    (hnodup : (σ.orderItems.map OrderItem.id).Nodup)
    (ho : findOrder σ oid = some ord)
    (hs : ord.status = "pending")
    (hi : findItem σ iid oid = some item)
    (hq : 0 < item.quantity) :
    updateItemQuantity σ oid iid item.quantity = (.ok item, σ) := by
  have hi' : findItemIn σ.orderItems iid oid = some item := hi
  have htx : updateItemQuantityTx σ oid iid item.quantity = .ok (item, σ) := by
    unfold updateItemQuantityTx
    rw [if_neg (not_le.mpr hq)]
    simp only [ho, hi]
    rw [if_neg (show ¬ord.status ≠ "pending" from fun hne => hne hs)]
    cases hp : findProductIn σ.products item.productId with
    | none =>
      simp only [sub_self]
      rw [if_neg (show ¬(0:Int) < 0 by omega)]
      rw [updateStock_zero,
        setItemQuantity_find_self σ.orderItems iid oid item hnodup hi']
    | some product =>
      simp only [sub_self]
      rw [if_neg (show ¬((0:Int) < 0 ∧ product.stock < 0) by omega)]
      rw [updateStock_zero,
        setItemQuantity_find_self σ.orderItems iid oid item hnodup hi']
  unfold updateItemQuantity
  rw [htx]

/-- Witness for C5: updating item0 (quantity 3) to quantity 3 returns the item
unchanged and leaves the database exactly as it was. -/
theorem updateItemQuantity_noop_witness :
    updateItemQuantity db1 1 1 3 = (.ok item0, db1) :=
  updateItemQuantity_noop db1 1 1 ord0 item0 (by decide) (by rfl) (by rfl)
    (by rfl) (by decide)

/- ### C6: removing the only item of a pending order is rejected -/

/-- C6: for every pending order with exactly one order item, RemoveItem
returns the LastItem error and the state is rolled back unchanged, whatever
item id is passed. -/
theorem removeItem_last_item_guard (σ : DB) (oid iid : Nat) (ord : Order)
    (ho : findOrder σ oid = some ord)
    (hs : ord.status = "pending")
    (hcount : itemCount σ oid = 1) :
    removeItem σ oid iid =
      (.error (.lastItem "Cannot remove last item. Delete the order instead."), σ) := by
  have htx : removeItemTx σ oid iid =
      .error (.lastItem "Cannot remove last item. Delete the order instead.") := by
    unfold removeItemTx
    simp only [ho]
    rw [if_neg (show ¬ord.status ≠ "pending" from fun hne => hne hs)]
    rw [if_pos (le_of_eq hcount)]
  unfold removeItem
  rw [htx]

/-- Witness for C6: db1 holds a pending order with exactly one item; removing
it is rejected with LastItem and the state is unchanged. -/
theorem removeItem_last_item_guard_witness :
    removeItem db1 1 1 =
      (.error (.lastItem "Cannot remove last item. Delete the order instead."), db1) :=
  removeItem_last_item_guard db1 1 1 ord0 (by rfl) (by rfl) (by rfl)

/- ### C7: RemoveItem restores stock and deletes the item atomically -/

/-- C7: RemoveItem is atomic: on any failure the state is rolled back
unchanged, and on success both effects are observable together — the removed
item's product stock is higher by exactly the item's stored quantity, and the
item row is gone (the handlers' own lookup no longer finds it). -/
theorem removeItem_atomic (σ : DB) (oid iid : Nat) (item : OrderItem)
    (hi : findItem σ iid oid = some item) :
    (exOk (removeItem σ oid iid).1 = false → (removeItem σ oid iid).2 = σ) ∧
    ((removeItem σ oid iid).1 = .ok iid →
      findProductIn (removeItem σ oid iid).2.products item.productId =
        (findProductIn σ.products item.productId).map
          (fun p => { p with stock := p.stock + item.quantity }) ∧
      findItemIn (removeItem σ oid iid).2.orderItems iid oid = none ∧
      (removeItem σ oid iid).2.orderItems = deleteItem σ.orderItems iid) := by
  unfold removeItem
  cases htx : removeItemTx σ oid iid with
  | error e =>
    constructor
    · intro _; rfl
    · intro hok; simp at hok
  | ok v =>
    obtain ⟨iid', σ₂⟩ := v
    constructor
    · intro hfalse
      simp [exOk] at hfalse
    · intro hok
      unfold removeItemTx at htx
      cases ho : findOrder σ oid with
      | none => rw [ho] at htx; simp at htx
      | some ord =>
        simp only [ho] at htx
        by_cases hst : ord.status ≠ "pending"
        · rw [if_pos hst] at htx; simp at htx
        · rw [if_neg hst] at htx
          by_cases hcnt : itemCount σ oid ≤ 1
          · rw [if_pos hcnt] at htx; simp at htx
          · rw [if_neg hcnt] at htx
            simp only [hi] at htx
            simp only [Except.ok.injEq, Prod.mk.injEq] at htx
            obtain ⟨-, hσeq⟩ := htx
            subst hσeq
            refine ⟨?_, ?_, rfl⟩
            · show findProductIn (restoreStock σ.products item.productId item.quantity)
                item.productId = _
              rw [findProductIn_restoreStock]
              cases hp : findProductIn σ.products item.productId with
              | none => rfl
              | some p =>
                have hp' : σ.products.find? (fun x => x.id == item.productId) = some p := hp
                have hpid := List.find?_some hp'
                simp only [Option.map_some']
                rw [if_pos hpid]
            · show findItemIn (deleteItem σ.orderItems iid) iid oid = none
              unfold findItemIn deleteItem
              rw [List.find?_eq_none]
              intro x hx
              obtain ⟨-, hqx⟩ := List.mem_filter.mp hx
              simp only [Bool.not_eq_true'] at hqx
              simp [hqx]

/-- Witness for C7: removing item 2 (quantity 2) from the two-item order of
db2 succeeds; the product's stock rises by 2 and the item row is gone. -/
theorem removeItem_atomic_witness :
    findProductIn (removeItem db2 1 2).2.products 1 =
      (findProductIn db2.products 1).map (fun p => { p with stock := p.stock + 2 }) ∧
    findItemIn (removeItem db2 1 2).2.orderItems 2 1 = none ∧
    (removeItem db2 1 2).2.orderItems = deleteItem db2.orderItems 2 :=
  (removeItem_atomic db2 1 2 item2 (by rfl)).2 (by rfl)

/- ### C9: item mutations are rejected on non-pending orders -/

/-- C9: on an order whose status is anything but pending, AddItem,
UpdateItemQuantity and RemoveItem all fail with InvalidState and the state is
rolled back unchanged (given inputs that pass the handlers' field validation).
Conversely, since every success path runs through this same status check, the
contrapositive says these mutations succeed only on pending orders. -/
theorem nonpending_blocks_item_mutations (σ : DB) (oid pid iid : Nat) (q : Int)
    (ord : Order)
    (ho : findOrder σ oid = some ord)
    (hs : ord.status ≠ "pending")
    (hpid : pid ≠ 0) (hq : 0 < q) :
    addItem σ oid pid q =
      (.error (.invalidState "Can only add items to pending orders"), σ) ∧
    updateItemQuantity σ oid iid q =
      (.error (.invalidState "Can only edit pending orders"), σ) ∧
    removeItem σ oid iid =
      (.error (.invalidState "Can only remove items from pending orders"), σ) := by
  have hval : ¬(pid = 0 ∨ q ≤ 0) := by
    rintro (h | h)
    · exact hpid h
    · exact absurd hq (not_lt.mpr h)
  have h1 : addItemTx σ oid pid q =
      .error (.invalidState "Can only add items to pending orders") := by
    unfold addItemTx
    rw [if_neg hval]
    simp only [ho]
    rw [if_pos hs]
  have h2 : updateItemQuantityTx σ oid iid q =
      .error (.invalidState "Can only edit pending orders") := by
    unfold updateItemQuantityTx
    rw [if_neg (not_le.mpr hq)]
    simp only [ho]
    rw [if_pos hs]
  have h3 : removeItemTx σ oid iid =
      .error (.invalidState "Can only remove items from pending orders") := by
    unfold removeItemTx
    simp only [ho]
    rw [if_pos hs]
  refine ⟨?_, ?_, ?_⟩
  · unfold addItem; rw [h1]
  · unfold updateItemQuantity; rw [h2]
  · unfold removeItem; rw [h3]

/-- Witness for C9: on the shipped order of db3 all three mutations are
rejected with InvalidState and the state stays as it was. -/
theorem nonpending_blocks_item_mutations_witness :
    addItem db3 1 1 5 =
      (.error (.invalidState "Can only add items to pending orders"), db3) ∧
    updateItemQuantity db3 1 1 5 =
      (.error (.invalidState "Can only edit pending orders"), db3) ∧
    removeItem db3 1 1 =
      (.error (.invalidState "Can only remove items from pending orders"), db3) :=
  nonpending_blocks_item_mutations db3 1 1 1 5 ordShipped (by rfl) (by decide)
    (by decide) (by decide)

/- ### C8: what the InsufficientStock messages contain -/

lemma toList_append (s t : String) : (s ++ t).toList = s.toList ++ t.toList := rfl

lemma hasSubList_nil (l : List Char) : hasSubList [] l = true := by
  induction l with
  | nil => rfl
  | cons c t ih => simp [hasSubList, leadsWith]

lemma leadsWith_append (n rest : List Char) : leadsWith n (n ++ rest) = true := by
  induction n with
  | nil => rfl
  | cons c cs ih => simp [leadsWith, ih]

lemma hasSubList_here (n post : List Char) : hasSubList n (n ++ post) = true := by
  cases n with
  | nil => simpa using hasSubList_nil post
  | cons c cs =>
    show hasSubList (c :: cs) (c :: (cs ++ post)) = true
    simp [hasSubList, leadsWith, leadsWith_append]

lemma hasSubList_self (n : List Char) : hasSubList n n = true := by
  have h := hasSubList_here n []
  rwa [List.append_nil] at h

lemma hasSubList_append_left (n pre rest : List Char) (h : hasSubList n rest = true) :
    hasSubList n (pre ++ rest) = true := by
  induction pre with
  | nil => simpa using h
  | cons c t ih => simp [hasSubList, ih]

lemma createStockMsg_has (name : String) (avail req : Int) :
    strHasSub (createStockMsg name avail req) name = true ∧
    strHasSub (createStockMsg name avail req) (toString avail) = true ∧
    strHasSub (createStockMsg name avail req) (toString req) = true := by
  unfold strHasSub createStockMsg
  simp only [toList_append, List.append_assoc]
  refine ⟨?_, ?_, ?_⟩
  · exact hasSubList_append_left _ _ _ (hasSubList_here _ _)
  · exact hasSubList_append_left _ _ _ (hasSubList_append_left _ _ _
      (hasSubList_append_left _ _ _ (hasSubList_here _ _)))
  · exact hasSubList_append_left _ _ _ (hasSubList_append_left _ _ _
      (hasSubList_append_left _ _ _ (hasSubList_append_left _ _ _
        (hasSubList_append_left _ _ _ (hasSubList_self _)))))

lemma itemStockMsg_has (avail : Int) :
    strHasSub (itemStockMsg avail) (toString avail) = true := by
  unfold strHasSub itemStockMsg
  simp only [toList_append]
  exact hasSubList_append_left _ _ _ (hasSubList_self _)

lemma processItems_insufficient_msg (oid : Nat) (items : List ItemInput) :
    ∀ (σ₁ : DB) (acc : List OrderItem) (m : String),
    processItems oid σ₁ items acc = .error (.insufficientStock m) →
    ∃ name avail req, m = createStockMsg name avail req := by
  induction items with
  | nil => intro σ₁ acc m h; simp [processItems] at h
  | cons it rest ih =>
    intro σ₁ acc m h
    simp only [processItems] at h
    by_cases hval : it.productId = 0 ∨ it.quantity ≤ 0
    · rw [if_pos hval] at h; simp at h
    · rw [if_neg hval] at h
      cases hfp : findProductIn σ₁.products it.productId with
      | none => rw [hfp] at h; simp at h
      | some product =>
        simp only [hfp] at h
        by_cases hstock : product.stock < it.quantity
        · rw [if_pos hstock] at h
          simp only [Except.error.injEq, ApiError.insufficientStock.injEq] at h
          exact ⟨product.name, product.stock, it.quantity, h.symm⟩
        · rw [if_neg hstock] at h
          exact ih _ _ _ h

lemma createOrder_insufficient_msg (σ : DB) (cid : Nat) (items : List ItemInput)
    (m : String)
    (h : (createOrder σ cid items).1 = .error (.insufficientStock m)) :
    ∃ name avail req, m = createStockMsg name avail req := by
  unfold createOrder at h
  cases htx : createOrderTx σ cid items with
  | ok v => rw [htx] at h; simp at h
  | error e =>
    rw [htx] at h
    simp only [Except.error.injEq] at h
    subst h
    unfold createOrderTx at htx
    by_cases h0 : cid = 0 ∨ items.isEmpty
    · rw [if_pos h0] at htx; simp at htx
    · rw [if_neg h0] at htx
      cases hc : findCustomer σ cid with
      | none => rw [hc] at htx; simp at htx
      | some c =>
        simp only [hc] at htx
        split at htx
        · rename_i e' heq
          simp only [Except.error.injEq] at htx
          subst htx
          exact processItems_insufficient_msg σ.nextOrderId items _ _ _ heq
        · simp at htx

lemma addItem_insufficient_msg (σ : DB) (oid pid : Nat) (q : Int) (m : String)
    (h : (addItem σ oid pid q).1 = .error (.insufficientStock m)) :
    ∃ avail, m = itemStockMsg avail := by
  unfold addItem at h
  cases htx : addItemTx σ oid pid q with
  | ok v => rw [htx] at h; simp at h
  | error e =>
    rw [htx] at h
    simp only [Except.error.injEq] at h
    subst h
    unfold addItemTx at htx
    by_cases hval : pid = 0 ∨ q ≤ 0
    · rw [if_pos hval] at htx; simp at htx
    · rw [if_neg hval] at htx
      cases ho : findOrder σ oid with
      | none => rw [ho] at htx; simp at htx
      | some ord =>
        simp only [ho] at htx
        by_cases hst : ord.status ≠ "pending"
        · rw [if_pos hst] at htx; simp at htx
        · rw [if_neg hst] at htx
          cases hfp : findProductIn σ.products pid with
          | none => rw [hfp] at htx; simp at htx
          | some product =>
            simp only [hfp] at htx
            by_cases hstock : product.stock < q
            · rw [if_pos hstock] at htx
              simp only [Except.error.injEq, ApiError.insufficientStock.injEq] at htx
              exact ⟨product.stock, htx.symm⟩
            · rw [if_neg hstock] at htx; simp at htx

lemma updateItemQuantity_insufficient_msg (σ : DB) (oid iid : Nat) (q : Int)
    (m : String)
    (h : (updateItemQuantity σ oid iid q).1 = .error (.insufficientStock m)) :
    ∃ avail, m = itemStockMsg avail := by
  unfold updateItemQuantity at h
  cases htx : updateItemQuantityTx σ oid iid q with
  | ok v => rw [htx] at h; simp at h
  | error e =>
    rw [htx] at h
    simp only [Except.error.injEq] at h
    subst h
    unfold updateItemQuantityTx at htx
    by_cases hval : q ≤ 0
    · rw [if_pos hval] at htx; simp at htx
    · rw [if_neg hval] at htx
      cases ho : findOrder σ oid with
      | none => rw [ho] at htx; simp at htx
      | some ord =>
        simp only [ho] at htx
        by_cases hst : ord.status ≠ "pending"
        · rw [if_pos hst] at htx; simp at htx
        · rw [if_neg hst] at htx
          cases hit : findItem σ iid oid with
          | none => rw [hit] at htx; simp at htx
          | some item =>
            simp only [hit] at htx
            cases hfp : findProductIn σ.products item.productId with
            | none =>
              simp only [hfp] at htx
              by_cases hdiff : 0 < q - item.quantity
              · rw [if_pos hdiff] at htx; simp at htx
              · rw [if_neg hdiff] at htx; simp at htx
            | some product =>
              simp only [hfp] at htx
              by_cases hcond : 0 < q - item.quantity ∧ product.stock < q - item.quantity
              · rw [if_pos hcond] at htx
                simp only [Except.error.injEq, ApiError.insufficientStock.injEq] at htx
                exact ⟨product.stock, htx.symm⟩
              · rw [if_neg hcond] at htx; simp at htx

/-- Counterexample for C8: product Widget has stock 7; AddItem requesting 99
fails with InsufficientStock, but the message is only
"Insufficient stock. Available: 7" — it names neither the product (Widget)
nor the requested quantity (99). -/
theorem insufficientStock_msg_counterexample :
    (addItem db1 1 1 99).1 =
      .error (.insufficientStock "Insufficient stock. Available: 7") ∧
    strHasSub "Insufficient stock. Available: 7" "Widget" = false ∧
    strHasSub "Insufficient stock. Available: 7" "99" = false :=
  ⟨by rfl, by rfl, by rfl⟩

/-- C8 (amended): only CreateOrder's InsufficientStock message carries the
product name, the available and the requested quantity; the messages of
AddItem and UpdateItemQuantity are built by itemStockMsg and carry only the
available quantity. -/
theorem insufficientStock_msg_amended (σ : DB) (cid : Nat) (items : List ItemInput)
    (oid pid iid : Nat) (q : Int) :
    (∀ m, (createOrder σ cid items).1 = .error (.insufficientStock m) →
      ∃ name avail req, m = createStockMsg name avail req ∧
        strHasSub m name = true ∧ strHasSub m (toString avail) = true ∧
        strHasSub m (toString req) = true) ∧
    (∀ m, (addItem σ oid pid q).1 = .error (.insufficientStock m) →
      ∃ avail, m = itemStockMsg avail ∧ strHasSub m (toString avail) = true) ∧
    (∀ m, (updateItemQuantity σ oid iid q).1 = .error (.insufficientStock m) →
      ∃ avail, m = itemStockMsg avail ∧ strHasSub m (toString avail) = true) := by
  refine ⟨?_, ?_, ?_⟩
  · intro m h
    obtain ⟨name, avail, req, rfl⟩ := createOrder_insufficient_msg σ cid items m h
    obtain ⟨h1, h2, h3⟩ := createStockMsg_has name avail req
    exact ⟨name, avail, req, rfl, h1, h2, h3⟩
  · intro m h
    obtain ⟨avail, rfl⟩ := addItem_insufficient_msg σ oid pid q m h
    exact ⟨avail, rfl, itemStockMsg_has avail⟩
  · intro m h
    obtain ⟨avail, rfl⟩ := updateItemQuantity_insufficient_msg σ oid iid q m h
    exact ⟨avail, rfl, itemStockMsg_has avail⟩

/- ### C10: UpdateItemQuantity on an item whose product is gone -/

/-- C10: contrary to the spec's NotFound contract, when a pending order's item
references a product that no longer exists, the PATCH handler reads the stock
of an absent row: increasing the quantity (delta positive) throws and is
reported as the generic 500 internal failure with full rollback, while not
increasing it silently succeeds — the item's quantity is updated and the
stock UPDATE matches no row. -/
theorem updateItemQuantity_missing_product_behavior :
    updateItemQuantity dbOrphan 1 1 5 =
      (.error (.internal "Failed to update order item"), dbOrphan) ∧
    (updateItemQuantity dbOrphan 1 1 2).1 =
      .ok { itemGhost with quantity := 2 } ∧
    (updateItemQuantity dbOrphan 1 1 2).2.products = [] ∧
    findItemIn (updateItemQuantity dbOrphan 1 1 2).2.orderItems 1 1 =
      some { itemGhost with quantity := 2 } :=
  ⟨by rfl, by rfl, by rfl, by rfl⟩

end OrderMgmt
